import Mathlib

/-!
Shallow embedding of the image-compression core of the repository
(`crespoh/image-compression`) and verification of its specification.

The repository contains several variants of the same React application.
Namespace `P1` embeds the variant in `src/unnamed/part_001` (string-keyed
presets, `getPresetSettings`, `resizeImage`, `compressToTargetSize`,
`processImage`); namespace `P3` embeds the variant in
`src/unnamed/part_003` (union-typed presets, `PRESETS`,
`validateDimensions`, `compressImage`, `recompressImage`); namespace
`AppMain` embeds `src/src/App.tsx`.

JavaScript numbers are modelled as rationals (`ℚ`), byte sizes and
quality percentages as naturals, and the external JPEG/PNG codec as an
oracle function supplied as a parameter.  `canvas.toBlob` hands its
callback either a `Blob` or `null`; where a claim depends on the `null`
case the oracle returns an `Option`.
-/

namespace P1

/-- Settings record returned by `getPresetSettings` in part_001.
`targetSize = none` models the JavaScript value `Infinity` (the only
non-finite target used by the code); `some n` models a finite byte
budget `n`. -/
structure Settings where
  maxWidth : ℚ
  maxHeight : ℚ
  targetSize : Option ℕ
  exactResize : Bool
deriving DecidableEq, Repr

/-- Embedding of `getPresetSettings` (part_001, lines 2037–2050).
`customWidth`/`customHeight` are the component-state values read by the
`'custom'` case.  The `switch` has a `default` branch returning the same
settings as `'etsy'`. -/
def getPresetSettings (customWidth customHeight : ℚ) (preset : String) : Settings :=
  if preset = "etsy" then ⟨2000, 2000, some (500 * 1024), false⟩
  else if preset = "shopee" then ⟨3000, 3000, some (2 * 1024 * 1024), false⟩
  else if preset = "linkedin" then ⟨1584, 396, some (2 * 1024 * 1024), true⟩
  else if preset = "custom" then ⟨customWidth, customHeight, none, false⟩
  else ⟨2000, 2000, some (500 * 1024), false⟩

/-- Embedding of the dimension computation of `resizeImage` (part_001,
lines 2052–2080).  The canvas drawing is I/O and is not modelled; the
function returns the `{width, height}` pair the source returns.  With
`exactResize` the bounds are taken verbatim; otherwise the source scales
by `r = min (maxW / w) (maxH / h)` exactly when `r < 1`. -/
def resizeImage (imgW imgH maxW maxH : ℚ) (exactResize : Bool) : ℚ × ℚ :=
  if exactResize then (maxW, maxH)
  else
    let r := min (maxW / imgW) (maxH / imgH)
    if r < 1 then (imgW * r, imgH * r) else (imgW, imgH)

/-- A blob produced by `canvas.toBlob`: the MIME type and quality
argument it was encoded with, and its byte size. -/
structure Blob where
  format : String
  quality : ℚ
  size : ℕ
deriving DecidableEq, Repr

/-- Codec oracle: `enc format quality` is the byte size of the blob the
canvas encoder produces for the current canvas at that MIME type and
quality argument. -/
def toBlob (enc : String → ℚ → ℕ) (format : String) (q : ℚ) : Blob :=
  ⟨format, q, enc format q⟩

/-- Embedding of the `do … while` loop of `compressToTargetSize`
(part_001, lines 2082–2105).  Each pass encodes at `q`, breaks when the
budget is met or `q ≤ 50`, otherwise decrements by 5 and re-enters only
while the decremented quality exceeds 50.  Returns the pair
`(blob, finalQuality)` the source returns. -/
def compressLoop (enc : String → ℚ → ℕ) (targetSize : ℕ) (q : ℕ) : Blob × ℕ :=
  let blob := toBlob enc "image/jpeg" ((q : ℚ) / 100)
  if blob.size ≤ targetSize ∨ q ≤ 50 then (blob, q)
  else if 50 < q - 5 then compressLoop enc targetSize (q - 5)
  else (blob, q - 5)
termination_by q
decreasing_by simp_wf; omega

/-- Embedding of `compressToTargetSize` (part_001, lines 2082–2105). -/
def compressToTargetSize (enc : String → ℚ → ℕ) (targetSize : ℕ)
    (initialQuality : ℕ) : Blob × ℕ :=
  compressLoop enc targetSize initialQuality

/-- JavaScript truthiness of the optional numeric arguments `customW` /
`customH` of `processImage`: `undefined` and `0` are falsy, every other
number is truthy. -/
def numTruthy : Option ℚ → Bool
  | none => false
  | some x => x != 0

/-- The compressed-image record `processImage` passes to
`setCompressedImage` (the `dataUrl` field is an object URL for `blob`
and carries no further information). -/
structure CompressedImage where
  blob : Blob
  width : ℚ
  height : ℚ
  size : ℕ
deriving DecidableEq, Repr

/-- Embedding of the successful path of `processImage` (part_001, lines
2107–2163): settings selection (the inline custom-settings literal has
no `exactResize` field, hence `false`), dimension resolution, then
either a single `canvas.toBlob` at `qualityValue / 100` — with MIME type
`image/png` for PNG files and `image/jpeg` otherwise — when
`targetSize` is `Infinity`, or the budgeted `compressToTargetSize`
loop. -/
def processImageCore (enc : String → ℚ → ℕ) (fileType : String) (imgW imgH : ℚ)
    (preset : String) (qualityValue : ℕ) (customW customH : Option ℚ)
    (stateCustomW stateCustomH : ℚ) : CompressedImage :=
  let settings : Settings :=
    if preset = "custom" ∧ numTruthy customW ∧ numTruthy customH then
      ⟨customW.getD 0, customH.getD 0, none, false⟩
    else getPresetSettings stateCustomW stateCustomH preset
  let dims := resizeImage imgW imgH settings.maxWidth settings.maxHeight settings.exactResize
  let blob :=
    match settings.targetSize with
    | none =>
        toBlob enc (if fileType = "image/png" then "image/png" else "image/jpeg")
          ((qualityValue : ℚ) / 100)
    | some t => (compressToTargetSize enc t qualityValue).1
  ⟨blob, dims.1, dims.2, blob.size⟩

/-- The React state of the part_001 component that `processImage`
touches. -/
structure AppState where
  compressedImage : Option CompressedImage
  error : Option String
  isProcessing : Bool
deriving DecidableEq, Repr

/-- State effect of `processImage` (part_001, lines 2107–2169) given
the outcome of its `try` body (the body's only failure sources are
exceptions from the external codec chain, abstracted as the `Except`
argument): on success the result is published and `error` stays `null`
(it was cleared on entry); on an exception the `catch` block (lines
2164–2168) sets `error` and leaves `compressedImage` untouched. -/
def processImageFinish (st : AppState) (outcome : Except String CompressedImage) : AppState :=
  match outcome with
  | .ok c => { compressedImage := some c, error := none, isProcessing := false }
  | .error msg =>
      { compressedImage := st.compressedImage, error := some msg, isProcessing := false }

/-- Effect of the `setCompressedImage(...)` call a completing
`processImage` performs on the `compressedImage` state cell (part_001,
line 2153): the cell is overwritten unconditionally — the source checks
no sequence number or staleness flag. -/
def setCompressedImage (_cell : Option CompressedImage) (result : CompressedImage) :
    Option CompressedImage :=
  some result

/-- Value of the `compressedImage` cell after a sequence of request
completions has been applied to it in completion order. -/
def runCompletions : Option CompressedImage → List CompressedImage → Option CompressedImage
  | cell, [] => cell
  | cell, r :: rs => runCompletions (setCompressedImage cell r) rs

end P1

namespace P3

/-- The closed union type `Preset` of part_003 (line 468 of the file:
`'etsy' | 'shopee' | 'linkedin' | 'custom'`). -/
inductive Preset where
  | etsy
  | shopee
  | linkedin
  | custom
deriving DecidableEq, Repr

/-- One entry of the `PRESETS` table of part_003 (the display name
carries no logic and is omitted). -/
structure PresetConfig where
  targetSize : ℕ
  maxWidth : ℚ
  maxHeight : ℚ
  exactResize : Bool
deriving DecidableEq, Repr

/-- Embedding of the `PRESETS` table of part_003 (lines 453–458). -/
def PRESETS : Preset → PresetConfig
  | .etsy => ⟨500 * 1024, 2000, 2000, false⟩
  | .shopee => ⟨2 * 1024 * 1024, 3000, 3000, false⟩
  | .linkedin => ⟨2 * 1024 * 1024, 1584, 396, true⟩
  | .custom => ⟨1 * 1024 * 1024, 1920, 1080, false⟩

/-- The `MAX_DIMENSIONS` constant of part_003 (line 451). -/
def MAX_DIMENSIONS : ℚ := 8000

/-- JavaScript's `Math.round`: round half toward positive infinity,
`⌊x + 1/2⌋`. -/
def jsRound (x : ℚ) : ℚ := ((⌊x + 1 / 2⌋ : ℤ) : ℚ)

/-- Embedding of the aspect-preserving clamp of `compressImage`
(part_003): `ar = img.width / img.height`; if `width > maxWidth` set
`width = maxWidth` and `height = round(width / ar)`; then if
`height > maxHeight` set `height = maxHeight` and
`width = round(height * ar)`.  The `custom` branch (lines 585–595) and
the preset branch (lines 598–609) of the source run this identical
computation on their respective bounds. -/
def fitWithin (imgW imgH maxW maxH : ℚ) : ℚ × ℚ :=
  let ar := imgW / imgH
  let p := if imgW > maxW then (maxW, jsRound (maxW / ar)) else (imgW, imgH)
  if p.2 > maxH then (jsRound (maxH * ar), maxH) else p

/-- Embedding of the dimension computation of `compressImage`
(part_003, lines 569–612): `linkedin` forces the exact banner
dimensions; `custom` with supplied dimensions clamps to them; all other
cases clamp to the preset's bounds. -/
def compressImageDims (imgW imgH : ℚ) (preset : Preset)
    (customDims : Option (ℚ × ℚ)) : ℚ × ℚ :=
  if preset = Preset.linkedin then
    ((PRESETS Preset.linkedin).maxWidth, (PRESETS Preset.linkedin).maxHeight)
  else
    match preset, customDims with
    | Preset.custom, some (cw, ch) => fitWithin imgW imgH cw ch
    | p, _ => fitWithin imgW imgH (PRESETS p).maxWidth (PRESETS p).maxHeight

/-- JavaScript's `Number.isInteger` on a rational model of a JS
number. -/
def isInteger (x : ℚ) : Bool := x.den == 1

/-- Embedding of `validateDimensions` (part_003, lines 538–549). -/
def validateDimensions (width height : ℚ) : Option String :=
  if ¬ isInteger width ∨ ¬ isInteger height then
    some "Width and height must be whole numbers."
  else if width ≤ 0 ∨ height ≤ 0 then
    some "Width and height must be positive numbers."
  else if width > MAX_DIMENSIONS ∨ height > MAX_DIMENSIONS then
    some "Width and height must be less than 8000px."
  else none

/-- The compressed-image record of part_003 (blob and its object URL
are represented by the byte size). -/
structure CompressedImage where
  width : ℚ
  height : ℚ
  size : ℕ
deriving DecidableEq, Repr

/-- The React state of the part_003 component that `recompressImage`
touches. -/
structure AppState where
  compressedImage : Option CompressedImage
  error : Option String
  dimensionError : Option String
  isProcessing : Bool
deriving DecidableEq, Repr

/-- Embedding of `recompressImage` (part_003, lines 638–667) as a state
transition.  `hasOriginal` is the `originalImage` guard;
`loadOutcome` abstracts `await loadImage(...)` (which precedes the
dimension validation and can throw); `encodeOutcome` abstracts
`await compressImage(...)`.  Returns the new state and whether the
encode (`compressImage`) was reached.  On an invalid custom dimension
the source sets `dimensionError` and returns before any encode; a
thrown exception reaches the `catch` (lines 661–665), which sets
`error` and leaves `compressedImage` untouched. -/
def recompressImage (st : AppState) (hasOriginal : Bool)
    (loadOutcome : Except String Unit) (selectedPreset : Preset)
    (customWidth customHeight : ℚ)
    (encodeOutcome : Except String CompressedImage) : AppState × Bool :=
  if ¬ hasOriginal then (st, false)
  else
    let st1 : AppState :=
      { st with isProcessing := true, error := none, dimensionError := none }
    match loadOutcome with
    | .error _ =>
        ({ st1 with error := some "Failed to reprocess image. Please try again.",
                    isProcessing := false }, false)
    | .ok _ =>
        if selectedPreset = Preset.custom ∧
            (validateDimensions customWidth customHeight).isSome then
          ({ st1 with dimensionError := validateDimensions customWidth customHeight,
                      isProcessing := false }, false)
        else
          match encodeOutcome with
          | .ok c => ({ st1 with compressedImage := some c, isProcessing := false }, true)
          | .error _ =>
              ({ st1 with error := some "Failed to reprocess image. Please try again.",
                          isProcessing := false }, true)

end P3

namespace AppMain

/-- Settlement status of a JavaScript promise. -/
inductive PromiseOutcome (α : Type) where
  | resolved : α → PromiseOutcome α
  | rejected : String → PromiseOutcome α
  | pending : PromiseOutcome α
deriving DecidableEq, Repr

/-- The compressed-image record of `src/src/App.tsx` (blob and data URL
represented by the byte size). -/
structure CompressedImage where
  width : ℚ
  height : ℚ
  size : ℕ
deriving DecidableEq, Repr

/-- Embedding of the promise returned by `compressImage` in
`src/src/App.tsx` (lines 158–176): the executor receives only a
`resolve` function (no `reject` parameter at all), and the
`canvas.toBlob` callback calls `resolve` only under `if (blob)`.
`codecBlob` is the blob the codec hands the callback (`none` = `null`),
modelled by its byte size; the function returns how the promise
settles. -/
def compressImageSettle (codecBlob : Option ℕ) (width height : ℚ) :
    PromiseOutcome CompressedImage :=
  match codecBlob with
  | some sz => PromiseOutcome.resolved ⟨width, height, sz⟩
  | none => PromiseOutcome.pending

end AppMain

namespace P1

/-- Unfolding of `compressLoop` when the `break` guard fires: the budget is
met or the quality is at or below the floor. -/
theorem compressLoop_break (enc : String → ℚ → ℕ) (t q : ℕ)
    (h1 : enc "image/jpeg" ((q : ℚ) / 100) ≤ t ∨ q ≤ 50) :
    compressLoop enc t q = (toBlob enc "image/jpeg" ((q : ℚ) / 100), q) := by
  rw [compressLoop]
  simp only [toBlob, h1, if_pos]

/-- Unfolding of `compressLoop` when the loop decrements and re-enters. -/
theorem compressLoop_continue (enc : String → ℚ → ℕ) (t q : ℕ)
    (h1 : ¬ (enc "image/jpeg" ((q : ℚ) / 100) ≤ t ∨ q ≤ 50)) (h2 : 50 < q - 5) :
    compressLoop enc t q = compressLoop enc t (q - 5) := by
  rw [compressLoop]
  simp only [toBlob, h1, if_neg, h2, if_pos, not_false_iff]

/-- Unfolding of `compressLoop` when the `while` condition fails after the
decrement: the last blob (encoded at `q`) is returned with final quality
`q - 5`. -/
theorem compressLoop_floor (enc : String → ℚ → ℕ) (t q : ℕ)
    (h1 : ¬ (enc "image/jpeg" ((q : ℚ) / 100) ≤ t ∨ q ≤ 50)) (h2 : ¬ 50 < q - 5) :
    compressLoop enc t q = (toBlob enc "image/jpeg" ((q : ℚ) / 100), q - 5) := by
  rw [compressLoop]
  simp only [toBlob, h1, if_neg, h2, not_false_iff]

end P1

/-- C1, counterexample: with a codec producing 600 bytes at every quality and
a budget of 500 bytes, a budgeted encode starting at quality 80 descends
80, 75, 70, 65, 60, 55, then stops because the decremented quality 50 fails
the `while` guard.  The returned quality is the floor 50, but the returned
blob is the one encoded at quality 55 (quality argument 55/100): the blob is
not encoded at the returned quality — quality 50 is never encoded at all. -/
theorem qualitySearch_floor_mismatch :
    (P1.compressToTargetSize (fun _ _ => 600) 500 80).2 = 50 ∧
    (P1.compressToTargetSize (fun _ _ => 600) 500 80).1.quality = 55 / 100 ∧
    (P1.compressToTargetSize (fun _ _ => 600) 500 80).1.quality ≠ 50 / 100 := by
  have e : P1.compressToTargetSize (fun _ _ => 600) 500 80 =
      (⟨"image/jpeg", 55 / 100, 600⟩, 50) := by
    unfold P1.compressToTargetSize
    rw [P1.compressLoop_continue _ _ _ (by norm_num) (by norm_num)]
    rw [P1.compressLoop_continue _ _ _ (by norm_num) (by norm_num)]
    rw [P1.compressLoop_continue _ _ _ (by norm_num) (by norm_num)]
    rw [P1.compressLoop_continue _ _ _ (by norm_num) (by norm_num)]
    rw [P1.compressLoop_continue _ _ _ (by norm_num) (by norm_num)]
    rw [P1.compressLoop_floor _ _ _ (by norm_num) (by norm_num)]
    norm_num [P1.toBlob]
  rw [e]
  norm_num

/-- C1, amended: for a budgeted encode starting above the floor, the loop
encodes along the descent sequence `start, start − 5, …` while the quality
exceeds 50; the returned blob is the one encoded at the lowest quality `e`
actually tried, every higher tried quality overshot the budget, and the
returned quality equals `e` when the budget was met at `e`, but `e − 5 ≤ 50`
when the budget was never met — in which case the returned blob was encoded
at `e`, not at the returned quality. -/
theorem qualitySearch_returns (enc : String → ℚ → ℕ) (t start : ℕ) (hstart : 50 < start) :
    ∃ e : ℕ, 50 < e ∧ e ≤ start ∧ (start - e) % 5 = 0 ∧
      (∀ q : ℕ, 50 < q → e < q → q ≤ start → (start - q) % 5 = 0 →
        t < enc "image/jpeg" ((q : ℚ) / 100)) ∧
      P1.compressToTargetSize enc t start =
        (P1.toBlob enc "image/jpeg" ((e : ℚ) / 100),
         if enc "image/jpeg" ((e : ℚ) / 100) ≤ t then e else e - 5) ∧
      (enc "image/jpeg" ((e : ℚ) / 100) ≤ t ∨ e - 5 ≤ 50) := by
  unfold P1.compressToTargetSize
  revert hstart
  induction start using Nat.strong_induction_on with
  | _ start ih =>
    intro hstart
    by_cases hbudget : enc "image/jpeg" ((start : ℚ) / 100) ≤ t
    · refine ⟨start, hstart, le_refl _, by omega, by omega, ?_, Or.inl hbudget⟩
      rw [P1.compressLoop_break enc t start (Or.inl hbudget), if_pos hbudget]
    · have hno : ¬ (enc "image/jpeg" ((start : ℚ) / 100) ≤ t ∨ start ≤ 50) := by omega
      by_cases hq : 50 < start - 5
      · obtain ⟨e, he1, he2, he3, he4, he5, he6⟩ := ih (start - 5) (by omega) hq
        refine ⟨e, he1, by omega, by omega, ?_, ?_, he6⟩
        · intro q hq1 hq2 hq3 hq4
          rcases eq_or_lt_of_le hq3 with h | h
          · subst h
            omega
          · exact he4 q hq1 hq2 (by omega) (by omega)
        · rw [P1.compressLoop_continue enc t start hno hq]
          exact he5
      · refine ⟨start, hstart, le_refl _, by omega, by omega, ?_, Or.inr (by omega)⟩
        rw [P1.compressLoop_floor enc t start hno hq, if_neg (by omega)]

/-- C1, witness for `qualitySearch_returns` at the codec producing 600 bytes
everywhere, budget 500 and start 80. -/
theorem qualitySearch_returns_witness :
    ∃ e : ℕ, 50 < e ∧ e ≤ 80 ∧ (80 - e) % 5 = 0 ∧
      (∀ q : ℕ, 50 < q → e < q → q ≤ 80 → (80 - q) % 5 = 0 →
        500 < (fun (_ : String) (_ : ℚ) => 600) "image/jpeg" ((q : ℚ) / 100)) ∧
      P1.compressToTargetSize (fun _ _ => 600) 500 80 =
        (P1.toBlob (fun _ _ => 600) "image/jpeg" ((e : ℚ) / 100),
         if (fun (_ : String) (_ : ℚ) => 600) "image/jpeg" ((e : ℚ) / 100) ≤ 500 then e
         else e - 5) ∧
      ((fun (_ : String) (_ : ℚ) => 600) "image/jpeg" ((e : ℚ) / 100) ≤ 500 ∨ e - 5 ≤ 50) :=
  qualitySearch_returns (fun _ _ => 600) 500 80 (by norm_num)

/-- Rounding helper: `Math.round` of a nonnegative value is nonnegative. -/
theorem jsRound_nonneg (x : ℚ) (hx : 0 ≤ x) : 0 ≤ P3.jsRound x := by
  unfold P3.jsRound
  have h : (0 : ℤ) ≤ ⌊x + 1 / 2⌋ := Int.floor_nonneg.mpr (by linarith)
  exact_mod_cast h

/-- Rounding helper: `Math.round x ≤ n` for an integer bound `n` strictly
above `x`. -/
theorem jsRound_le_of_lt (x : ℚ) (n : ℕ) (hx : x < n) : P3.jsRound x ≤ n := by
  unfold P3.jsRound
  have h1 : ⌊x + 1 / 2⌋ < (n : ℤ) + 1 := by
    apply Int.floor_lt.mpr
    push_cast
    linarith
  have h2 : ⌊x + 1 / 2⌋ ≤ (n : ℤ) := by omega
  exact_mod_cast h2

/-- Rounding helper: if `Math.round x` exceeds an integer `n` then
`x ≥ n + 1/2`. -/
theorem le_of_jsRound_gt (x : ℚ) (n : ℕ) (hx : (n : ℚ) < P3.jsRound x) :
    (n : ℚ) + 1 / 2 ≤ x := by
  unfold P3.jsRound at hx
  have h1 : (n : ℤ) < ⌊x + 1 / 2⌋ := by exact_mod_cast hx
  have h2 : (n : ℤ) + 1 ≤ ⌊x + 1 / 2⌋ := by omega
  have h3 : (((n : ℤ) + 1 : ℤ) : ℚ) ≤ x + 1 / 2 := Int.le_floor.mp h2
  push_cast at h3
  linarith

/-- Bounds and no-upscaling for the part_001 resolver. -/
theorem part1_fit_aux (w h W H : ℕ) (hw : 0 < w) (hh : 0 < h) :
    (P1.resizeImage w h W H false).1 ≤ W ∧ (P1.resizeImage w h W H false).2 ≤ H ∧
      ((w : ℚ) ≤ W → (h : ℚ) ≤ H → P1.resizeImage w h W H false = ((w : ℚ), (h : ℚ))) := by
  have hw' : (0 : ℚ) < w := by exact_mod_cast hw
  have hh' : (0 : ℚ) < h := by exact_mod_cast hh
  unfold P1.resizeImage
  simp only [Bool.false_eq_true, if_false]
  by_cases hr : min ((W : ℚ) / w) ((H : ℚ) / h) < 1
  · rw [if_pos hr]
    refine ⟨?_, ?_, ?_⟩
    · calc (w : ℚ) * min ((W : ℚ) / w) ((H : ℚ) / h)
          ≤ w * ((W : ℚ) / w) := by
            exact mul_le_mul_of_nonneg_left (min_le_left _ _) hw'.le
        _ = W := by field_simp
    · calc (h : ℚ) * min ((W : ℚ) / w) ((H : ℚ) / h)
          ≤ h * ((H : ℚ) / h) := by
            exact mul_le_mul_of_nonneg_left (min_le_right _ _) hh'.le
        _ = H := by field_simp
    · intro hW hH
      exfalso
      have h1 : (1 : ℚ) ≤ (W : ℚ) / w := (one_le_div hw').mpr hW
      have h2 : (1 : ℚ) ≤ (H : ℚ) / h := (one_le_div hh').mpr hH
      have := le_min h1 h2
      linarith
  · rw [if_neg hr]
    push_neg at hr
    have h1 : (1 : ℚ) ≤ (W : ℚ) / w := le_trans hr (min_le_left _ _)
    have h2 : (1 : ℚ) ≤ (H : ℚ) / h := le_trans hr (min_le_right _ _)
    exact ⟨(one_le_div hw').mp h1, (one_le_div hh').mp h2, fun _ _ => rfl⟩

/-- Bounds and no-upscaling for the part_003 resolver. -/
theorem part3_fit_aux (w h W H : ℕ) (hw : 0 < w) (hh : 0 < h) :
    (P3.fitWithin w h W H).1 ≤ W ∧ (P3.fitWithin w h W H).2 ≤ H ∧
      ((w : ℚ) ≤ W → (h : ℚ) ≤ H → P3.fitWithin w h W H = ((w : ℚ), (h : ℚ))) := by
  have hw' : (0 : ℚ) < w := by exact_mod_cast hw
  have hh' : (0 : ℚ) < h := by exact_mod_cast hh
  by_cases hb1 : (w : ℚ) > W
  · by_cases hb2 : P3.jsRound ((W : ℚ) / ((w : ℚ) / h)) > (H : ℚ)
    · have e : P3.fitWithin w h W H = (P3.jsRound ((H : ℚ) * ((w : ℚ) / h)), (H : ℚ)) := by
        simp only [P3.fitWithin, if_pos hb1]
        rw [if_pos hb2]
      rw [e]
      have hx : (H : ℚ) + 1 / 2 ≤ (W : ℚ) / ((w : ℚ) / h) := le_of_jsRound_gt _ _ hb2
      have hdd : (W : ℚ) / ((w : ℚ) / h) = (W : ℚ) * h / w := div_div_eq_mul_div _ _ _
      rw [hdd] at hx
      have hx2 : ((H : ℚ) + 1 / 2) * w ≤ (W : ℚ) * h := (le_div_iff₀ hw').mp hx
      have hlt : (H : ℚ) * ((w : ℚ) / h) < W := by
        rw [mul_div_assoc']
        rw [div_lt_iff₀ hh']
        nlinarith
      refine ⟨jsRound_le_of_lt _ _ hlt, le_refl _, ?_⟩
      intro hW _
      exact absurd (lt_of_le_of_lt hW (lt_of_le_of_lt (le_refl _) (by linarith))) (lt_irrefl _)
    · have e : P3.fitWithin w h W H = ((W : ℚ), P3.jsRound ((W : ℚ) / ((w : ℚ) / h))) := by
        simp only [P3.fitWithin, if_pos hb1]
        rw [if_neg hb2]
      rw [e]
      push_neg at hb2
      refine ⟨le_refl _, hb2, ?_⟩
      intro hW _
      linarith
  · by_cases hb2 : (h : ℚ) > H
    · have e : P3.fitWithin w h W H = (P3.jsRound ((H : ℚ) * ((w : ℚ) / h)), (H : ℚ)) := by
        simp only [P3.fitWithin, if_neg hb1]
        rw [if_pos hb2]
      rw [e]
      push_neg at hb1
      have hlt : (H : ℚ) * ((w : ℚ) / h) < W := by
        rw [mul_div_assoc']
        rw [div_lt_iff₀ hh']
        nlinarith
      refine ⟨jsRound_le_of_lt _ _ hlt, le_refl _, ?_⟩
      intro _ hH
      linarith
    · have e : P3.fitWithin w h W H = ((w : ℚ), (h : ℚ)) := by
        simp only [P3.fitWithin, if_neg hb1]
        rw [if_neg hb2]
      rw [e]
      push_neg at hb1 hb2
      exact ⟨hb1, hb2, fun _ _ => rfl⟩

/-- C2: for both observed variants of the aspect-preserving resolver, the
output never exceeds the bounds, and a source already within the bounds is
returned unchanged (never upscaled). -/
theorem fitWithinBounds_no_upscale (w h W H : ℕ) (hw : 0 < w) (hh : 0 < h) :
    ((P1.resizeImage w h W H false).1 ≤ W ∧ (P1.resizeImage w h W H false).2 ≤ H ∧
      ((w : ℚ) ≤ W → (h : ℚ) ≤ H → P1.resizeImage w h W H false = ((w : ℚ), (h : ℚ)))) ∧
    ((P3.fitWithin w h W H).1 ≤ W ∧ (P3.fitWithin w h W H).2 ≤ H ∧
      ((w : ℚ) ≤ W → (h : ℚ) ≤ H → P3.fitWithin w h W H = ((w : ℚ), (h : ℚ)))) :=
  ⟨part1_fit_aux w h W H hw hh, part3_fit_aux w h W H hw hh⟩

/-- C2, witness at the spec's scenario source 4000×3000, bounds 2000×2000. -/
theorem fitWithinBounds_no_upscale_witness :
    (0 < 4000 ∧ 0 < 3000) ∧
    (((P1.resizeImage 4000 3000 2000 2000 false).1 ≤ 2000 ∧
      (P1.resizeImage 4000 3000 2000 2000 false).2 ≤ 2000 ∧
      ((4000 : ℚ) ≤ 2000 → (3000 : ℚ) ≤ 2000 →
        P1.resizeImage 4000 3000 2000 2000 false = ((4000 : ℚ), (3000 : ℚ)))) ∧
    ((P3.fitWithin 4000 3000 2000 2000).1 ≤ 2000 ∧
      (P3.fitWithin 4000 3000 2000 2000).2 ≤ 2000 ∧
      ((4000 : ℚ) ≤ 2000 → (3000 : ℚ) ≤ 2000 →
        P3.fitWithin 4000 3000 2000 2000 = ((4000 : ℚ), (3000 : ℚ))))) := by
  constructor
  · exact ⟨by decide, by decide⟩
  · have := fitWithinBounds_no_upscale 4000 3000 2000 2000 (by decide) (by decide)
    push_cast at this ⊢
    exact this

/-- C3, counterexample: two results are published via `setCompressedImage` in
the completion order "newer request r2 first, stale request r1 second"; the
cell ends up holding r1's result, because the publish step checks no
sequence number. -/
theorem staleResult_overwrites :
    P1.runCompletions none
        [⟨⟨"image/jpeg", 80 / 100, 900⟩, 200, 100, 900⟩,
         ⟨⟨"image/jpeg", 80 / 100, 1000⟩, 100, 100, 1000⟩] =
      some ⟨⟨"image/jpeg", 80 / 100, 1000⟩, 100, 100, 1000⟩ ∧
    (⟨⟨"image/jpeg", 80 / 100, 1000⟩, 100, 100, 1000⟩ : P1.CompressedImage) ≠
      ⟨⟨"image/jpeg", 80 / 100, 900⟩, 200, 100, 900⟩ := by
  constructor
  · rfl
  · intro hc
    have : (100 : ℚ) = 200 := congrArg P1.CompressedImage.width hc
    norm_num at this

/-- C3, amended: the `compressedImage` cell always ends up holding the result
of the request that completes last, whatever the issue order was. -/
theorem lastCompletionWins (cell : Option P1.CompressedImage)
    (l : List P1.CompressedImage) (r : P1.CompressedImage) :
    P1.runCompletions cell (l ++ [r]) = some r := by
  induction l generalizing cell with
  | nil => rfl
  | cons a l ih => exact ih (P1.setCompressedImage cell a)

/-- C4, counterexample: `"bogus"` is outside the closed preset set, yet
`getPresetSettings` silently returns the default (Etsy) settings instead of
failing. -/
theorem getPresetSettings_unknown_silent :
    "bogus" ≠ "etsy" ∧ "bogus" ≠ "shopee" ∧ "bogus" ≠ "linkedin" ∧ "bogus" ≠ "custom" ∧
    P1.getPresetSettings 100 100 "bogus" =
      ⟨2000, 2000, some (500 * 1024), false⟩ := by
  exact ⟨by decide, by decide, by decide, by decide, rfl⟩

/-- C4, amended: preset lookup is total — for every name outside the closed
set it silently returns the default settings (identical to Etsy's); it never
fails. -/
theorem getPresetSettings_unknown_default (cw ch : ℚ) (name : String)
    (h1 : name ≠ "etsy") (h2 : name ≠ "shopee") (h3 : name ≠ "linkedin")
    (h4 : name ≠ "custom") :
    P1.getPresetSettings cw ch name = ⟨2000, 2000, some (500 * 1024), false⟩ := by
  unfold P1.getPresetSettings
  rw [if_neg h1, if_neg h2, if_neg h3, if_neg h4]

/-- C4, witness for `getPresetSettings_unknown_default` at name `"bogus"`. -/
theorem getPresetSettings_unknown_default_witness :
    ("bogus" ≠ "etsy" ∧ "bogus" ≠ "shopee" ∧ "bogus" ≠ "linkedin" ∧
      "bogus" ≠ "custom") ∧
    P1.getPresetSettings 50 60 "bogus" = ⟨2000, 2000, some (500 * 1024), false⟩ :=
  ⟨⟨by decide, by decide, by decide, by decide⟩,
    getPresetSettings_unknown_default 50 60 "bogus" (by decide) (by decide) (by decide)
      (by decide)⟩

/-- C5: the exact-resize policy returns exactly the preset bounds for every
source shape — in part_001 via `resizeImage` with `exactResize`, in part_003
via the `linkedin` branch of `compressImage` (bounds 1584×396). -/
theorem exactResize_exact (w h maxW maxH : ℚ) (cd : Option (ℚ × ℚ)) :
    P1.resizeImage w h maxW maxH true = (maxW, maxH) ∧
    P3.compressImageDims w h P3.Preset.linkedin cd = (1584, 396) :=
  ⟨rfl, rfl⟩

/-- C6, counterexample: part_003 resolves an 8000×1 source (accepted by its
upload guard, which only rejects dimensions above 8000) under the Etsy
bounds 2000×2000 to 2000×0 — `Math.round(2000/8000) = 0` and no clamp to 1
exists; and part_001 applies no rounding at all: a 1000×999 source under
500×500 bounds resolves to the non-integral height 999/2. -/
theorem fit_rounding_zero_axis :
    P3.compressImageDims 8000 1 P3.Preset.etsy none = (2000, 0) ∧
    (P1.resizeImage 1000 999 500 500 false).2 = 999 / 2 ∧
    ¬ ∃ n : ℤ, (P1.resizeImage 1000 999 500 500 false).2 = (n : ℚ) := by
  have hhalf : (P1.resizeImage 1000 999 500 500 false).2 = 999 / 2 := by
    norm_num [P1.resizeImage, min_def]
  refine ⟨?_, hhalf, ?_⟩
  · norm_num [P3.compressImageDims, P3.fitWithin, P3.jsRound, P3.PRESETS]
    decide
  · rintro ⟨n, hn⟩
    rw [hhalf] at hn
    have h2 : (999 : ℚ) = 2 * n := by linarith
    have h3 : (999 : ℤ) = 2 * n := by exact_mod_cast h2
    omega

/-- C6, amended: part_003's resolver always returns integer, nonnegative
dimensions (each axis is either a bound, a source dimension, or a
`Math.round` value), but nothing clamps a rounded-to-zero axis to 1. -/
theorem fit_rounding_integer_outputs (w h W H : ℕ) (hw : 0 < w) (hh : 0 < h) :
    ∃ a b : ℤ, 0 ≤ a ∧ 0 ≤ b ∧ P3.fitWithin w h W H = ((a : ℚ), (b : ℚ)) := by
  have hw' : (0 : ℚ) < w := by exact_mod_cast hw
  have hh' : (0 : ℚ) < h := by exact_mod_cast hh
  by_cases hb1 : (w : ℚ) > W
  · by_cases hb2 : P3.jsRound ((W : ℚ) / ((w : ℚ) / h)) > (H : ℚ)
    · refine ⟨⌊(H : ℚ) * ((w : ℚ) / h) + 1 / 2⌋, (H : ℤ),
        Int.floor_nonneg.mpr (by positivity), Int.ofNat_zero_le H, ?_⟩
      have e : P3.fitWithin w h W H = (P3.jsRound ((H : ℚ) * ((w : ℚ) / h)), (H : ℚ)) := by
        simp only [P3.fitWithin, if_pos hb1]
        rw [if_pos hb2]
      rw [e]
      unfold P3.jsRound
      norm_num
    · refine ⟨(W : ℤ), ⌊(W : ℚ) / ((w : ℚ) / h) + 1 / 2⌋,
        Int.ofNat_zero_le W, Int.floor_nonneg.mpr (by positivity), ?_⟩
      have e : P3.fitWithin w h W H = ((W : ℚ), P3.jsRound ((W : ℚ) / ((w : ℚ) / h))) := by
        simp only [P3.fitWithin, if_pos hb1]
        rw [if_neg hb2]
      rw [e]
      unfold P3.jsRound
      norm_num
  · by_cases hb2 : (h : ℚ) > H
    · refine ⟨⌊(H : ℚ) * ((w : ℚ) / h) + 1 / 2⌋, (H : ℤ),
        Int.floor_nonneg.mpr (by positivity), Int.ofNat_zero_le H, ?_⟩
      have e : P3.fitWithin w h W H = (P3.jsRound ((H : ℚ) * ((w : ℚ) / h)), (H : ℚ)) := by
        simp only [P3.fitWithin, if_neg hb1]
        rw [if_pos hb2]
      rw [e]
      unfold P3.jsRound
      norm_num
    · refine ⟨(w : ℤ), (h : ℤ), Int.ofNat_zero_le w, Int.ofNat_zero_le h, ?_⟩
      have e : P3.fitWithin w h W H = ((w : ℚ), (h : ℚ)) := by
        simp only [P3.fitWithin, if_neg hb1]
        rw [if_neg hb2]
      rw [e]
      norm_num

/-- C6, witness for `fit_rounding_integer_outputs` at source 8000×1 and
bounds 2000×2000. -/
theorem fit_rounding_integer_outputs_witness :
    (0 < 8000 ∧ 0 < 1) ∧
    ∃ a b : ℤ, 0 ≤ a ∧ 0 ≤ b ∧ P3.fitWithin 8000 1 2000 2000 = ((a : ℚ), (b : ℚ)) := by
  constructor
  · exact ⟨by decide, by decide⟩
  · have := fit_rounding_integer_outputs 8000 1 2000 2000 (by decide) (by decide)
    push_cast at this ⊢
    exact this

/-- The blob produced by the budgeted quality search always carries the
`image/jpeg` MIME type. -/
theorem compressLoop_format (enc : String → ℚ → ℕ) (t : ℕ) :
    ∀ q : ℕ, (P1.compressLoop enc t q).1.format = "image/jpeg" := by
  intro q
  induction q using Nat.strong_induction_on with
  | _ q ih =>
    by_cases hbr : enc "image/jpeg" ((q : ℚ) / 100) ≤ t ∨ q ≤ 50
    · rw [P1.compressLoop_break enc t q hbr]
      rfl
    · by_cases hq : 50 < q - 5
      · rw [P1.compressLoop_continue enc t q hbr hq]
        exact ih (q - 5) (by omega)
      · rw [P1.compressLoop_floor enc t q hbr hq]
        rfl

/-- Every preset other than `custom` resolves to a finite byte budget in
part_001 (including unknown names, which fall to the default case). -/
theorem getPresetSettings_budgeted (sw sh : ℚ) (p : String) (hp : p ≠ "custom") :
    ∃ t : ℕ, (P1.getPresetSettings sw sh p).targetSize = some t := by
  unfold P1.getPresetSettings
  split_ifs with h1 h2 h3
  · exact ⟨_, rfl⟩
  · exact ⟨_, rfl⟩
  · exact ⟨_, rfl⟩
  · exact ⟨_, rfl⟩

/-- C7, counterexample: the unbounded (custom) path of `processImage` passes
`image/png` to `canvas.toBlob` when the uploaded file is a PNG — the output
is not the lossy format. -/
theorem png_custom_emits_png :
    (P1.processImageCore (fun _ _ => 100) "image/png" 500 500 "custom" 92
        (some 100) (some 100) 1 1).blob.format = "image/png" ∧
    "image/png" ≠ "image/jpeg" :=
  ⟨rfl, by decide⟩

/-- C7, amended: every budgeted encode (any preset other than `custom`,
including unknown names) emits `image/jpeg`, and the unbounded custom path
emits `image/jpeg` for non-PNG sources; but for a PNG source the custom path
emits `image/png` instead of normalizing to the lossy format. -/
theorem format_selection (enc : String → ℚ → ℕ) (ft : String) (w h : ℚ)
    (preset : String) (q : ℕ) (cw ch : Option ℚ) (sw sh : ℚ) :
    (preset ≠ "custom" →
      (P1.processImageCore enc ft w h preset q cw ch sw sh).blob.format = "image/jpeg") ∧
    (ft ≠ "image/png" →
      (P1.processImageCore enc ft w h preset q cw ch sw sh).blob.format = "image/jpeg") ∧
    (preset = "custom" → ft = "image/png" →
      (P1.processImageCore enc ft w h preset q cw ch sw sh).blob.format = "image/png") := by
  by_cases hc : preset = "custom" ∧ P1.numTruthy cw ∧ P1.numTruthy ch
  · have e : P1.processImageCore enc ft w h preset q cw ch sw sh =
        (let settings : P1.Settings := ⟨cw.getD 0, ch.getD 0, none, false⟩
         let dims := P1.resizeImage w h settings.maxWidth settings.maxHeight
           settings.exactResize
         let blob := P1.toBlob enc (if ft = "image/png" then "image/png" else "image/jpeg")
           ((q : ℚ) / 100)
         ⟨blob, dims.1, dims.2, blob.size⟩) := by
      simp only [P1.processImageCore, if_pos hc]
    refine ⟨fun hne => absurd hc.1 hne, fun hft => ?_, fun _ hft => ?_⟩
    · rw [e]
      simp only [P1.toBlob, if_neg hft]
    · rw [e]
      simp only [P1.toBlob, if_pos hft]
  · have e : P1.processImageCore enc ft w h preset q cw ch sw sh =
        (let settings := P1.getPresetSettings sw sh preset
         let dims := P1.resizeImage w h settings.maxWidth settings.maxHeight
           settings.exactResize
         let blob :=
           match settings.targetSize with
           | none =>
               P1.toBlob enc (if ft = "image/png" then "image/png" else "image/jpeg")
                 ((q : ℚ) / 100)
           | some t => (P1.compressToTargetSize enc t q).1
         ⟨blob, dims.1, dims.2, blob.size⟩) := by
      simp only [P1.processImageCore, if_neg hc]
    by_cases hp : preset = "custom"
    · have hset : P1.getPresetSettings sw sh preset = ⟨sw, sh, none, false⟩ := by
        unfold P1.getPresetSettings
        rw [if_neg (by simp [hp]), if_neg (by simp [hp]), if_neg (by simp [hp]),
          if_pos hp]
      refine ⟨fun hne => absurd hp hne, fun hft => ?_, fun _ hft => ?_⟩
      · rw [e]
        simp only [hset, P1.toBlob, if_neg hft]
      · rw [e]
        simp only [hset, P1.toBlob, if_pos hft]
    · obtain ⟨t, ht⟩ := getPresetSettings_budgeted sw sh preset hp
      have hfmt : (P1.processImageCore enc ft w h preset q cw ch sw sh).blob.format =
          "image/jpeg" := by
        rw [e]
        simp only [ht]
        exact compressLoop_format enc t q
      exact ⟨fun _ => hfmt, fun _ => hfmt, fun hcu => absurd hcu hp⟩

/-- C7, witness for `format_selection` with a PNG source and the custom
preset. -/
theorem format_selection_witness :
    (("custom" : String) ≠ "custom" →
      (P1.processImageCore (fun _ _ => 100) "image/png" 500 500 "custom" 92
        (some 100) (some 100) 1 1).blob.format = "image/jpeg") ∧
    (("image/png" : String) ≠ "image/png" →
      (P1.processImageCore (fun _ _ => 100) "image/png" 500 500 "custom" 92
        (some 100) (some 100) 1 1).blob.format = "image/jpeg") ∧
    (("custom" : String) = "custom" → ("image/png" : String) = "image/png" →
      (P1.processImageCore (fun _ _ => 100) "image/png" 500 500 "custom" 92
        (some 100) (some 100) 1 1).blob.format = "image/png") :=
  format_selection (fun _ _ => 100) "image/png" 500 500 "custom" 92
    (some 100) (some 100) 1 1

/-- C8: invalid custom bounds (non-integral, non-positive, or above the
8000px cap on either axis) make `recompressImage` set a dimension error and
return before the encode is attempted, leaving the published compressed
result unchanged. -/
theorem invalidBounds_rejected_before_encode (st : P3.AppState) (cw ch : ℚ)
    (encodeOutcome : Except String P3.CompressedImage)
    (hinv : ¬ P3.isInteger cw ∨ cw ≤ 0 ∨ P3.MAX_DIMENSIONS < cw ∨
      ¬ P3.isInteger ch ∨ ch ≤ 0 ∨ P3.MAX_DIMENSIONS < ch) :
    (P3.recompressImage st true (Except.ok ()) P3.Preset.custom cw ch
        encodeOutcome).2 = false ∧
    (P3.recompressImage st true (Except.ok ()) P3.Preset.custom cw ch
        encodeOutcome).1.compressedImage = st.compressedImage ∧
    (P3.recompressImage st true (Except.ok ()) P3.Preset.custom cw ch
        encodeOutcome).1.dimensionError.isSome = true := by
  have hv : (P3.validateDimensions cw ch).isSome = true := by
    unfold P3.validateDimensions
    split_ifs with h1 h2 h3
    · rfl
    · rfl
    · rfl
    · exfalso
      push_neg at h1 h2 h3
      rcases hinv with h | h | h | h | h | h
      · exact h h1.1
      · linarith [h2.1]
      · linarith [h3.1]
      · exact h h1.2
      · linarith [h2.2]
      · linarith [h3.2]
  have e : P3.recompressImage st true (Except.ok ()) P3.Preset.custom cw ch
      encodeOutcome =
      ({ st with dimensionError := P3.validateDimensions cw ch,
                 error := none, isProcessing := false }, false) := by
    unfold P3.recompressImage
    rw [if_neg (by simp)]
    simp only []
    rw [if_pos ⟨trivial, hv⟩]
  rw [e]
  exact ⟨rfl, rfl, hv⟩

/-- C8, witness at width 0 and height 9000 (both invalid). -/
theorem invalidBounds_rejected_before_encode_witness :
    (¬ P3.isInteger (0 : ℚ) ∨ (0 : ℚ) ≤ 0 ∨ P3.MAX_DIMENSIONS < (0 : ℚ) ∨
      ¬ P3.isInteger (9000 : ℚ) ∨ (9000 : ℚ) ≤ 0 ∨ P3.MAX_DIMENSIONS < (9000 : ℚ)) ∧
    ((P3.recompressImage ⟨some ⟨800, 600, 44000⟩, none, none, false⟩ true
        (Except.ok ()) P3.Preset.custom 0 9000 (Except.ok ⟨1, 1, 1⟩)).2 = false ∧
     (P3.recompressImage ⟨some ⟨800, 600, 44000⟩, none, none, false⟩ true
        (Except.ok ()) P3.Preset.custom 0 9000 (Except.ok ⟨1, 1, 1⟩)).1.compressedImage =
       (⟨some ⟨800, 600, 44000⟩, none, none, false⟩ : P3.AppState).compressedImage ∧
     (P3.recompressImage ⟨some ⟨800, 600, 44000⟩, none, none, false⟩ true
        (Except.ok ()) P3.Preset.custom 0 9000
        (Except.ok ⟨1, 1, 1⟩)).1.dimensionError.isSome = true) :=
  ⟨Or.inr (Or.inl (by norm_num)),
    invalidBounds_rejected_before_encode ⟨some ⟨800, 600, 44000⟩, none, none, false⟩
      0 9000 (Except.ok ⟨1, 1, 1⟩) (Or.inr (Or.inl (by norm_num)))⟩

/-- C9: a failed encode surfaces a typed error and leaves the previously
published compressed result untouched, in both part_001's `processImage`
(`catch` block) and part_003's `recompressImage` (`catch` block), the latter
whenever the dimension validation passes (any non-custom preset, or custom
with valid bounds). -/
theorem encodeFailure_preserves_result (st1 : P1.AppState) (msg1 : String)
    (st3 : P3.AppState) (p : P3.Preset) (cw ch : ℚ) (msg3 : String)
    (hvalid : p ≠ P3.Preset.custom ∨ P3.validateDimensions cw ch = none) :
    ((P1.processImageFinish st1 (Except.error msg1)).compressedImage =
        st1.compressedImage ∧
      (P1.processImageFinish st1 (Except.error msg1)).error = some msg1) ∧
    ((P3.recompressImage st3 true (Except.ok ()) p cw ch
        (Except.error msg3)).1.compressedImage = st3.compressedImage ∧
      (P3.recompressImage st3 true (Except.ok ()) p cw ch
        (Except.error msg3)).1.error =
        some "Failed to reprocess image. Please try again.") := by
  refine ⟨⟨rfl, rfl⟩, ?_⟩
  have hcond : ¬ (p = P3.Preset.custom ∧
      (P3.validateDimensions cw ch).isSome = true) := by
    rintro ⟨hp, hs⟩
    rcases hvalid with h | h
    · exact h hp
    · rw [h] at hs
      simp at hs
  have e : P3.recompressImage st3 true (Except.ok ()) p cw ch (Except.error msg3) =
      ({ st3 with error := some "Failed to reprocess image. Please try again.",
                  dimensionError := none, isProcessing := false }, true) := by
    unfold P3.recompressImage
    rw [if_neg (by simp)]
    simp only []
    rw [if_neg hcond]
  rw [e]
  exact ⟨rfl, rfl⟩

/-- C9, witness with the Etsy preset. -/
theorem encodeFailure_preserves_result_witness :
    ((P3.Preset.etsy ≠ P3.Preset.custom ∨
        P3.validateDimensions 100 100 = none)) ∧
    (((P1.processImageFinish ⟨some ⟨⟨"image/jpeg", 80 / 100, 7⟩, 10, 10, 7⟩, none, false⟩
          (Except.error "boom")).compressedImage =
        (⟨some ⟨⟨"image/jpeg", 80 / 100, 7⟩, 10, 10, 7⟩, none, false⟩ :
          P1.AppState).compressedImage ∧
      (P1.processImageFinish ⟨some ⟨⟨"image/jpeg", 80 / 100, 7⟩, 10, 10, 7⟩, none, false⟩
          (Except.error "boom")).error = some "boom") ∧
    ((P3.recompressImage ⟨some ⟨800, 600, 44000⟩, none, none, false⟩ true
        (Except.ok ()) P3.Preset.etsy 100 100
        (Except.error "enc")).1.compressedImage =
        (⟨some ⟨800, 600, 44000⟩, none, none, false⟩ : P3.AppState).compressedImage ∧
      (P3.recompressImage ⟨some ⟨800, 600, 44000⟩, none, none, false⟩ true
        (Except.ok ()) P3.Preset.etsy 100 100 (Except.error "enc")).1.error =
        some "Failed to reprocess image. Please try again.")) :=
  ⟨Or.inl (by decide),
    encodeFailure_preserves_result ⟨some ⟨⟨"image/jpeg", 80 / 100, 7⟩, 10, 10, 7⟩, none, false⟩
      "boom" ⟨some ⟨800, 600, 44000⟩, none, none, false⟩ P3.Preset.etsy 100 100 "enc"
      (Or.inl (by decide))⟩

/-- C10: in `src/src/App.tsx`, when the codec hands the `toBlob` callback
`null`, the promise returned by `compressImage` never settles (neither
resolves nor rejects), and no input makes it reject — an encode-failure
error is unreachable from this path. -/
theorem toBlob_null_promise_pending (w h : ℚ) :
    AppMain.compressImageSettle none w h = AppMain.PromiseOutcome.pending ∧
    ∀ (cb : Option ℕ) (e : String),
      AppMain.compressImageSettle cb w h ≠ AppMain.PromiseOutcome.rejected e := by
  refine ⟨rfl, ?_⟩
  intro cb e
  cases cb <;> simp [AppMain.compressImageSettle]

/-- C3, instance of `lastCompletionWins`: with the stale result completing
last, the cell holds the stale result. -/
theorem lastCompletionWins_witness :
    P1.runCompletions none
        ([⟨⟨"image/jpeg", 80 / 100, 900⟩, 200, 100, 900⟩] ++
          [⟨⟨"image/jpeg", 80 / 100, 1000⟩, 100, 100, 1000⟩]) =
      some ⟨⟨"image/jpeg", 80 / 100, 1000⟩, 100, 100, 1000⟩ :=
  lastCompletionWins none [⟨⟨"image/jpeg", 80 / 100, 900⟩, 200, 100, 900⟩]
    ⟨⟨"image/jpeg", 80 / 100, 1000⟩, 100, 100, 1000⟩

/-- C5, instance of `exactResize_exact` at a 4000×3000 source. -/
theorem exactResize_exact_witness :
    P1.resizeImage 4000 3000 1584 396 true = (1584, 396) ∧
    P3.compressImageDims 4000 3000 P3.Preset.linkedin none = (1584, 396) :=
  exactResize_exact 4000 3000 1584 396 none

/-- C10, instance of `toBlob_null_promise_pending` at 640×480. -/
theorem toBlob_null_promise_pending_witness :
    AppMain.compressImageSettle none 640 480 = AppMain.PromiseOutcome.pending ∧
    ∀ (cb : Option ℕ) (e : String),
      AppMain.compressImageSettle cb 640 480 ≠ AppMain.PromiseOutcome.rejected e :=
  toBlob_null_promise_pending 640 480
